import Mathlib

/-!
Shallow embedding of the `Unstable_DrupalClient` class from
`packages/next-drupal/src/client.ts`.

JavaScript strings are modelled as Lean `String`; `undefined`/missing values
as `Option`; JS truthiness of a string is "non-empty"; network effects are
modelled by passing the would-be response (or the produced request
descriptor) explicitly.  All definitions are computable so that concrete
claims evaluate by `decide`/`rfl`.
-/

namespace NextDrupal

/-! ### JavaScript string primitives used by the client -/

/-- Models JS `s.charAt(0) === "/"`. -/
def headIsSlash (s : String) : Bool :=
  match s.data with
  | '/' :: _ => true
  | _ => false

/-- Models JS `s.slice(-1) === "/"` (is the last character a slash?). -/
def lastIsSlash (s : String) : Bool :=
  match s.data.getLast? with
  | some '/' => true
  | _ => false

/-- Models JS `s.replace(/^\//, "")`: drop one leading slash. -/
def dropLeadingSlash (s : String) : String :=
  match s.data with
  | '/' :: rest => String.mk rest
  | _ => s

/-- Models JS `s.replace(/\/$/, "")`: drop one trailing slash. -/
def dropTrailingSlash (s : String) : String :=
  match s.data.reverse with
  | '/' :: rest => String.mk rest.reverse
  | _ => s

/-- Models JS `s.replace(/^\/+/, "")`: drop every leading slash. -/
def dropLeadingSlashes (s : String) : String :=
  String.mk (s.data.dropWhile (fun c => c == '/'))

/-- Models JS `s.replace(/^\/|\/$/g, "")`: remove one leading and one
trailing slash (the regex matches at most once at each anchor). -/
def trimOneSlash (s : String) : String :=
  let l1 :=
    match s.data with
    | '/' :: rest => rest
    | l => l
  match l1.reverse with
  | '/' :: rest => String.mk rest.reverse
  | _ => String.mk l1

/-- Replace the first occurrence of `pat` in a character list by `repl`
(JS `String.prototype.replace` with a string pattern). -/
def listReplaceFirst (pat repl : List Char) : List Char → List Char
  | [] => if pat.isEmpty then repl else []
  | c :: rest =>
    if pat.isPrefixOf (c :: rest) then repl ++ (c :: rest).drop pat.length
    else c :: listReplaceFirst pat repl rest

/-- Models JS `s.replace(pat, repl)` with a plain-string pattern: only the
first occurrence is replaced. -/
def replaceFirstStr (s pat repl : String) : String :=
  String.mk (listReplaceFirst pat.data repl.data s.data)

/-- Index of the first occurrence of `pat` in a character list. -/
def firstOccurrenceIdx (pat : List Char) : List Char → Option Nat
  | [] => if pat.isEmpty then some 0 else none
  | c :: rest =>
    if pat.isPrefixOf (c :: rest) then some 0
    else (firstOccurrenceIdx pat rest).map (· + 1)

/-- Models JS `s.startsWith(sub)` / an anchored regex test, character
based so it evaluates in the kernel. -/
def strStartsWith (s pre : String) : Bool :=
  List.isPrefixOf pre.data s.data

/-- Models JS `s.indexOf(sub)` (`-1` when absent). -/
def jsIndexOf (s sub : String) : Int :=
  match firstOccurrenceIdx sub.data s.data with
  | some n => (n : Int)
  | none => -1

/-- Models JS `s.split("/")` (note `"".split("/")` is `[""]`). -/
def jsSplitSlashAux (acc : List Char) : List Char → List String
  | [] => [String.mk acc]
  | c :: rest =>
    if c = '/' then String.mk acc :: jsSplitSlashAux [] rest
    else jsSplitSlashAux (acc ++ [c]) rest

/-- Models JS `s.split("/")`. -/
def jsSplitSlash (s : String) : List String :=
  jsSplitSlashAux [] s.data

/-- JS truthiness of an optional string: defined and non-empty. -/
def truthyStr : Option String → Option String
  | some s => if s = "" then none else some s
  | none => none

/-! ### Query-string encoding (the `qs` library's `stringify`, as used on
flat string-valued parameter records with default options) -/

/-- Characters `qs` leaves unencoded in RFC 3986 format:
alphanumerics and `-`, `.`, `_`, `~`. -/
def isUrlUnreserved (c : Char) : Bool :=
  let n := c.toNat
  decide ((97 ≤ n ∧ n ≤ 122) ∨ (65 ≤ n ∧ n ≤ 90) ∨ (48 ≤ n ∧ n ≤ 57) ∨
    n = 45 ∨ n = 46 ∨ n = 95 ∨ n = 126)

/-- Upper-case hexadecimal digit. -/
def hexDigitChar (n : Nat) : Char :=
  if n < 10 then Char.ofNat (48 + n) else Char.ofNat (55 + n)

/-- UTF-8 byte sequence of a code point. -/
def utf8ByteList (n : Nat) : List Nat :=
  if n < 128 then [n]
  else if n < 2048 then [192 + n / 64, 128 + n % 64]
  else if n < 65536 then [224 + n / 4096, 128 + (n / 64) % 64, 128 + n % 64]
  else [240 + n / 262144, 128 + (n / 4096) % 64, 128 + (n / 64) % 64, 128 + n % 64]

/-- Percent-encode one character as `qs` does. -/
def percentEncodeChar (c : Char) : List Char :=
  if isUrlUnreserved c then [c]
  else ((utf8ByteList c.toNat).map
    (fun b => ['%', hexDigitChar (b / 16), hexDigitChar (b % 16)])).flatten

/-- Percent-encode a string as `qs` does for keys and values. -/
def percentEncode (s : String) : String :=
  String.mk ((s.data.map percentEncodeChar).flatten)

/-- Models `stringify(params)` from the `qs` package for a flat record of
string keys and values: `k=v` pairs joined by `&`, keys and values
percent-encoded (so bracket-nested keys keep their brackets, encoded). -/
def qsStringify (kvs : List (String × String)) : String :=
  String.intercalate "&" (kvs.map (fun kv => percentEncode kv.1 ++ "=" ++ percentEncode kv.2))

/-! ### `buildUrl` (client.ts lines 902-920) -/

/-- The `params` argument of `buildUrl`: either a plain record of query
parameters, or an object exposing a `getQueryObject()` capability
(e.g. a `DrupalJsonApiParams`), which `buildUrl` flattens before encoding. -/
inductive UrlParams where
  | plain (kvs : List (String × String))
  | withQueryObject (queryObject : List (String × String))
deriving DecidableEq, Repr

/-- `if (typeof params === "object" && "getQueryObject" in params)
params = params.getQueryObject()`. -/
def resolveUrlParams : UrlParams → List (String × String)
  | .plain kvs => kvs
  | .withQueryObject q => q

/-- Result of `buildUrl`: the URL before the query, plus the
`url.search` assigned from `stringify(params)`. -/
structure BuiltUrl where
  base : String
  search : String
deriving DecidableEq, Repr

/-- `buildUrl(path, params)`: a path whose first character is `/` is
prefixed with the configured base URL, any other path is used as-is
(already absolute); `url.search = stringify(params)` when params are given. -/
def buildUrl (baseUrl path : String) (params : Option UrlParams) : BuiltUrl :=
  let base := if headIsSlash path then baseUrl ++ path else path
  match params with
  | none => { base := base, search := "" }
  | some p => { base := base, search := qsStringify (resolveUrlParams p) }

/-! ### Access tokens (client.ts lines 142-145 and 922-974) -/

/-- A `simple_oauth` access token as returned by the token endpoint. -/
structure AccessToken where
  access_token : String
  token_type : String
  expires_in : Nat
deriving DecidableEq, Repr

/-- Client-credentials auth configuration (`DrupalClientOptions["auth"]`
object form); the setter fills `url` with `/oauth/token` by default. -/
structure ClientAuth where
  clientId : String
  clientSecret : String
  url : String := "/oauth/token"
deriving DecidableEq, Repr

/-- The token cache held on the client: `this._token` and
`this.tokenExpiresOn` (milliseconds, `undefined` before the first store). -/
structure TokenState where
  tokenCached : Option AccessToken
  tokenExpiresOn : Option Nat
deriving DecidableEq, Repr

/-- `private set token(token)`: stores the token and records
`tokenExpiresOn = Date.now() + token.expires_in * 1000`. -/
def storeToken (now : Nat) (t : AccessToken) : TokenState :=
  { tokenCached := some t, tokenExpiresOn := some (now + t.expires_in * 1000) }

/-- Outcome of `getAccessToken`: the returned token, the token state after
the call, and how many token-fetch requests were performed (0 or 1). -/
structure TokenFetchOutcome where
  token : AccessToken
  state : TokenState
  fetchCount : Nat
deriving DecidableEq, Repr

/-- The fetch-a-new-token branch of `getAccessToken`: `fetched` is the
outcome of the `POST` to the token endpoint (`.error statusText` models a
non-ok response, which the code turns into a thrown error). -/
def fetchNewToken (now : Nat) (fetched : Except String AccessToken) :
    Except String TokenFetchOutcome :=
  match fetched with
  | .error statusText => .error statusText
  | .ok result => .ok { token := result, state := storeToken now result, fetchCount := 1 }

/-- `getAccessToken()` (client.ts lines 922-974).  `auth = none` models
`this._auth` not being an object descriptor.  The cached token is returned
(with no fetch) exactly when it exists and `now < tokenExpiresOn`; in JS a
comparison against an `undefined` expiry is false, hence the `none` expiry
branch also fetches. -/
def getAccessToken (auth : Option ClientAuth) (st : TokenState) (now : Nat)
    (fetched : Except String AccessToken) : Except String TokenFetchOutcome :=
  match auth with
  | none => .error "auth is not configured. See https://next-drupal.org/docs/client/auth"
  | some a =>
    if a.clientId = "" ∨ a.clientSecret = "" then
      .error "clientId and clientSecret required. See https://next-drupal.org/docs/client/auth"
    else
      match st.tokenCached, st.tokenExpiresOn with
      | some t, some exp =>
        if now < exp then .ok { token := t, state := st, fetchCount := 0 }
        else fetchNewToken now fetched
      | some _, none => fetchNewToken now fetched
      | none, _ => fetchNewToken now fetched

/-! ### Error formatting (client.ts lines 186-195 and 982-1014) -/

/-- One entry of a JSON:API `errors` array. -/
structure JsonApiErr where
  status : String
  title : String
  detail : Option String
deriving DecidableEq, Repr

/-- `formatJsonApiErrors(errors)`: formats the first entry as
`"{status} {title}"` plus `"\n{detail}"` when the detail is truthy — the
JS guard `if (error.detail)` skips an absent *or empty* detail string.
(On an empty array the JS code would crash destructuring the first
element — still a failure; callers guard on `errors.length`.) -/
def formatJsonApiErrors : List JsonApiErr → String
  | [] => ""
  | e :: _ =>
    let message := e.status ++ " " ++ e.title
    match e.detail with
    | some d => if d = "" then message else message ++ "\n" ++ d
    | none => message

/-- The parts of a `Response` that `fetch`/`formatErrorResponse` inspect:
`ok`, `statusText`, the `content-type` header (`none` models a null
header), the body's `message` field when parsed as plain JSON, and the
body's `errors` member when parsed as a JSON:API document. -/
structure ErrResponse where
  ok : Bool
  statusText : String
  contentType : Option String
  jsonMessage : Option String
  errors : Option (List JsonApiErr)
deriving DecidableEq, Repr

/-- `formatErrorResponse(response)`: classify by exact content type;
`application/json` yields the body's `message` field (an absent field
gives an empty error message), `application/vnd.api+json` with a
non-empty `errors` array yields the JSON:API-formatted message, anything
else the HTTP status text. -/
def formatErrorResponse (r : ErrResponse) : String :=
  if r.contentType = some "application/json" then
    match r.jsonMessage with
    | some m => m
    | none => ""
  else if r.contentType = some "application/vnd.api+json" then
    match r.errors with
    | some (e :: rest) => formatJsonApiErrors (e :: rest)
    | _ => r.statusText
  else r.statusText

/-- The response-handling tail of `fetch(input, init)`: an ok response is
returned, a non-ok response is never returned — the call fails with the
message from `formatErrorResponse`. -/
def fetchResult (r : ErrResponse) : Except String ErrResponse :=
  if r.ok then .ok r else .error (formatErrorResponse r)

/-! ### Menu trees (client.ts lines 757-817) -/

/-- A flat menu link as consumed by `buildMenuTree` (the fields it reads). -/
structure MenuLink where
  id : String
  parent : String
deriving DecidableEq, Repr

/-- A node of the built tree: the link's own fields spread together with
the recursive result; `sub = none` models the spread of `{}` (no `items`
key on the node), `sub = some xs` the spread of `{items: xs}`. -/
inductive MenuTreeNode where
  | mk (link : MenuLink) (sub : Option (List MenuTreeNode))

/-- The `children.map((link) => ({...link, ...this.buildMenuTree(links, link.id)}))`
step, abstracted over the recursive call. -/
def buildMenuChildren (build : String → Option (Option (List MenuTreeNode))) :
    List MenuLink → Option (List MenuTreeNode)
  | [] => some []
  | c :: cs =>
    match build c.id with
    | none => none
    | some sub =>
      match buildMenuChildren build cs with
      | none => none
      | some rest => some (MenuTreeNode.mk c sub :: rest)

/-- `buildMenuTree(links, parent = "")` (client.ts lines 797-817).  The
result `some none` models the bare `{}` (no `items` key), `some (some xs)`
models `{items: xs}`; the outer `none` is fuel exhaustion, standing for the
unbounded recursion the JS code would perform on cyclic parent chains. -/
def buildMenuTree : Nat → List MenuLink → String → Option (Option (List MenuTreeNode))
  | 0, _, _ => none
  | Nat.succ fuel, links, parent =>
    if links.isEmpty then some (some [])
    else
      let children := links.filter (fun l => l.parent == parent)
      if children.isEmpty then some none
      else
        match buildMenuChildren (fun pid => buildMenuTree fuel links pid) children with
        | some nodes => some (some nodes)
        | none => none

/-- The tree extraction in `getMenu` (client.ts line 789):
`const { items: tree } = this.buildMenuTree(items)` — the returned `tree`
is the `items` field of the root call, `undefined` (inner `none`) when the
root call produced `{}`. -/
def getMenuTreeOfItems (fuel : Nat) (items : List MenuLink) :
    Option (Option (List MenuTreeNode)) :=
  buildMenuTree fuel items ""

/-! ### Static path params (client.ts lines 526-553) -/

/-- Options of `buildStaticPathsParamsFromPaths` (`prefixOption` embeds
the source's `options.prefix`). -/
structure StaticPathsOptions where
  prefixOption : Option String := none
  locale : Option String := none
deriving DecidableEq, Repr

/-- One produced entry: `{ params: { slug }, locale? }`. -/
structure StaticPathEntry where
  slug : List String
  locale : Option String
deriving DecidableEq, Repr

/-- `buildStaticPathsParamsFromPaths(paths, options)`: per path, strip one
leading and one trailing slash, then — when a (truthy) prefix is given —
remove the first occurrence of `"<prefix-without-leading-slash>/"`
anywhere in the string, split on `/`, and tag with the locale only when a
(truthy) locale option is given. -/
def buildStaticPathsParamsFromPaths (paths : List String) (options : StaticPathsOptions) :
    List StaticPathEntry :=
  paths.map (fun p =>
    let p1 := trimOneSlash p
    let p2 :=
      match truthyStr options.prefixOption with
      | some pre => replaceFirstStr p1 (dropLeadingSlash pre ++ "/") ""
      | none => p1
    { slug := jsSplitSlash p2, locale := truthyStr options.locale })

/-! ### `getPathFromContext` (client.ts lines 603-636) -/

/-- `getPathFromContext(context, options)`.  `slug` models
`context.params?.slug` (`none` = no slug param; a list is joined on `/`);
an empty joined slug is falsy in JS and falls back to the front page. -/
def getPathFromContext (frontPage : String) (slug : Option (List String))
    (locale defaultLocale : Option String) (prefixOption : String) : String :=
  let prefix0 := if headIsSlash prefixOption then prefixOption else "/" ++ prefixOption
  let prefix1 :=
    match locale with
    | some l => if l ≠ "" ∧ defaultLocale ≠ some l then "/" ++ l ++ prefix0 else prefix0
    | none => prefix0
  let slugJoined :=
    match slug with
    | some xs => String.intercalate "/" xs
    | none => ""
  let pair :=
    if slugJoined = "" then (dropTrailingSlash prefix1, frontPage)
    else (prefix1, slugJoined)
  let slugFinal :=
    if ¬lastIsSlash pair.1 ∧ ¬headIsSlash pair.2 then "/" ++ pair.2 else pair.2
  pair.1 ++ slugFinal

/-! ### `getResourceByPath` — request side (client.ts lines 276-360) -/

/-- The locale-driven path rewrite at the top of `getResourceByPath`
(lines 295-306): when a (truthy) locale and defaultLocale are given and
`path.indexOf(locale) !== 1`, the path is rebuilt through
`getPathFromContext` with the path (leading slashes stripped, except for
`"/"` itself) as the single slug segment. -/
def normalizeResourcePath (frontPage path : String) (locale defaultLocale : Option String) :
    String :=
  match truthyStr locale, truthyStr defaultLocale with
  | some l, some _ =>
    if jsIndexOf path l ≠ 1 then
      let p := if path = "/" then path else dropLeadingSlashes path
      getPathFromContext frontPage (some [p]) locale defaultLocale "/"
    else path
  | _, _ => path

/-- `if (options.params.resourceVersion) options.isVersionable = true`:
a (truthy) `resourceVersion` in the params forces versionability. -/
def versionableInByPath (isVersionableOption : Bool) (resourceVersion : Option String) : Bool :=
  match resourceVersion with
  | some s => if s = "" then isVersionableOption else true
  | none => isVersionableOption

/-- The params destructuring and re-attachment (lines 313-317):
`resourceVersion` is pulled out of the params (defaulting to
`rel:latest-version` when undefined) and re-attached only when the entity
is treated as versionable; otherwise it is not sent at all. -/
def paramsAfterVersioning (isVersionableOption : Bool) (resourceVersion : Option String)
    (rest : List (String × String)) : List (String × String) :=
  if versionableInByPath isVersionableOption resourceVersion then
    rest ++ [("resourceVersion", resourceVersion.getD "rel:latest-version")]
  else rest

/-- The subrequests endpoint path (lines 341-348): localized only when a
(truthy) locale and defaultLocale are both given and differ. -/
def subrequestsEndpoint (locale defaultLocale : Option String) : String :=
  match truthyStr locale, truthyStr defaultLocale with
  | some l, some d => if l ≠ d then "/" ++ l ++ "/subrequests" else "/subrequests"
  | _, _ => "/subrequests"

/-- One element of the batched subrequests payload; `acceptHeader` models
the optional `headers: {Accept: ...}` member, `waitFor = []` its absence. -/
structure Subrequest where
  requestId : String
  action : String
  uri : String
  waitFor : List String
  acceptHeader : Option String
deriving DecidableEq, Repr

/-- The two-element payload built at lines 323-336: the router translation
request, then the resolved-resource request that waits for it and
interpolates the router response's JSON:API individual link. -/
def subrequestsPayload (path resourceParams : String) : List Subrequest :=
  [ { requestId := "router", action := "view",
      uri := "/router/translate-path?path=" ++ path ++ "&_format=json",
      waitFor := [], acceptHeader := some "application/vnd.api+json" },
    { requestId := "resolvedResource", action := "view",
      uri := "\x7b\x7brouter.body@$.jsonapi.individual\x7d\x7d?" ++ resourceParams,
      waitFor := ["router"], acceptHeader := none } ]

/-- The options of `getResourceByPath` after the defaults at lines
283-289 are merged (`paramsResourceVersion`/`paramsRest` embed
`options.params` with its `resourceVersion` member split out). -/
structure ByPathOptions where
  deserialize : Bool := true
  isVersionable : Bool := false
  locale : Option String := none
  defaultLocale : Option String := none
  paramsResourceVersion : Option String := none
  paramsRest : List (String × String) := []
deriving DecidableEq, Repr

/-- The single HTTP call a `getResourceByPath` invocation issues. -/
structure SubrequestsCall where
  method : String
  url : BuiltUrl
  payload : List Subrequest
deriving DecidableEq, Repr

/-- The request side of `getResourceByPath(path, options)`: `none` models
the early `return null` on an empty path; otherwise exactly one `POST` to
the subrequests endpoint is produced, carrying the two-element payload. -/
def getResourceByPathRequest (baseUrl frontPage path : String) (o : ByPathOptions) :
    Option SubrequestsCall :=
  if path = "" then none
  else
    let npath := normalizeResourcePath frontPage path o.locale o.defaultLocale
    let params := paramsAfterVersioning o.isVersionable o.paramsResourceVersion o.paramsRest
    let resourceParams := qsStringify params
    some
      { method := "POST",
        url := buildUrl baseUrl (subrequestsEndpoint o.locale o.defaultLocale)
          (some (.plain [("_format", "json")])),
        payload := subrequestsPayload npath resourceParams }

/-! ### `getResourceByPath` — response side (client.ts lines 362-382) -/

/-- The parsed body of the router sub-response (the only field read). -/
structure RouterBodyDoc where
  message : Option String
deriving DecidableEq, Repr

/-- The parsed body of the resolved-resource sub-response: its optional
JSON:API `errors` member, and an opaque payload standing for the rest of
the document. -/
structure ResourceBodyDoc where
  errors : Option (List JsonApiErr)
  payload : String
deriving DecidableEq, Repr

/-- The batched response as inspected by the code:
`resolvedResourceBody` is the parsed body under the
resolved-resource key (`none` when the key or its body is absent/falsy),
`routerBody` the parsed body of the router sub-response. -/
structure SubrequestsJson where
  resolvedResourceBody : Option ResourceBodyDoc
  routerBody : Option RouterBodyDoc
deriving DecidableEq, Repr

/-- Outcome of the response-handling tail of `getResourceByPath`. -/
inductive ByPathOutcome where
  | failure (message : String)
  | nullResult
  | resource (deserialized : Bool) (doc : ResourceBodyDoc)
deriving DecidableEq, Repr

/-- Lines 362-382: with no resolved-resource body, a (truthy) `message`
inside the router body fails the call and anything else returns `null`;
with a resolved-resource body, a present `errors` member fails with the
JSON:API-formatted message, otherwise the (optionally deserialized)
document is returned. -/
def handleSubrequestsResponse (deserialize : Bool) (j : SubrequestsJson) : ByPathOutcome :=
  match j.resolvedResourceBody with
  | none =>
    match j.routerBody with
    | some r =>
      match r.message with
      | some m => if m = "" then .nullResult else .failure m
      | none => .nullResult
    | none => .nullResult
  | some doc =>
    match doc.errors with
    | some es => .failure (formatJsonApiErrors es)
    | none => .resource deserialize doc

/-! ### Versionability seen from `getResourceFromContext`
(client.ts lines 234-261 composed with lines 308-317) -/

/-- The `isVersionable` default in `getResourceFromContext` (line 237):
the regex test `^node--` applied to the type, overridden by an explicitly
supplied option (the trailing `...options` spread wins). -/
def contextIsVersionable (type : String) (callerIsVersionable : Option Bool) : Bool :=
  callerIsVersionable.getD (strStartsWith type "node--")

/-- The params merge at lines 257-260: `previewData?.resourceVersion`
overridden by a `resourceVersion` in the caller's params. -/
def contextResourceVersion (previewRV callerRV : Option String) : Option String :=
  match callerRV with
  | some v => some v
  | none => previewRV

/-- Whether the composed `getResourceFromContext` → `getResourceByPath`
pipeline treats the entity as versionable. -/
def resolvedVersionable (type : String) (callerIsVersionable : Option Bool)
    (previewRV callerRV : Option String) : Bool :=
  versionableInByPath (contextIsVersionable type callerIsVersionable)
    (contextResourceVersion previewRV callerRV)

/-- The `resourceVersion` query parameter the pipeline actually sends
(`none` = the parameter is absent from the resolved-resource query). -/
def resolvedResourceVersionParam (type : String) (callerIsVersionable : Option Bool)
    (previewRV callerRV : Option String) : Option String :=
  (paramsAfterVersioning (contextIsVersionable type callerIsVersionable)
      (contextResourceVersion previewRV callerRV) []).lookup "resourceVersion"

/-! ## Helper lemmas -/

theorem headIsSlash_slashAppend (a b : String) : headIsSlash (("/" ++ a) ++ b) = true := by
  have h : (("/" ++ a) ++ b).data = '/' :: (a.data ++ b.data) := by
    rw [String.data_append, String.data_append]
    rfl
  simp [headIsSlash, h]

theorem subrequestsEndpoint_headIsSlash (locale defaultLocale : Option String) :
    headIsSlash (subrequestsEndpoint locale defaultLocale) = true := by
  unfold subrequestsEndpoint
  rcases h1 : truthyStr locale with _ | l <;> rcases h2 : truthyStr defaultLocale with _ | d <;>
    simp only []
  · rfl
  · rfl
  · rfl
  · by_cases hld : l = d
    · simp [hld]
      rfl
    · simp [hld]
      exact headIsSlash_slashAppend l "/subrequests"

/-! ## Claim theorems -/

/-- Claim C1: with a configured client-credentials auth, `getAccessToken`
returns the cached token object unchanged, with no token fetch, whenever
`Date.now()` is strictly below the stored expiry
(`issuedAt + expires_in * 1000`, recorded when the token was stored);
when the cached token is absent or now is at or past the expiry, exactly
one token fetch happens and the new token is stored with expiry
`now + expires_in * 1000` before being returned. -/
theorem claim1_getAccessToken_cache (a : ClientAuth) (ha : a.clientId ≠ "")
    (hs : a.clientSecret ≠ "") (t tok : AccessToken) (exp now : Nat) :
    (getAccessToken (some a) ⟨some t, some exp⟩ now (.ok tok) =
      if now < exp then .ok ⟨t, ⟨some t, some exp⟩, 0⟩
      else .ok ⟨tok, ⟨some tok, some (now + tok.expires_in * 1000)⟩, 1⟩)
    ∧ getAccessToken (some a) ⟨none, some exp⟩ now (.ok tok) =
        .ok ⟨tok, ⟨some tok, some (now + tok.expires_in * 1000)⟩, 1⟩
    ∧ getAccessToken (some a) ⟨none, none⟩ now (.ok tok) =
        .ok ⟨tok, ⟨some tok, some (now + tok.expires_in * 1000)⟩, 1⟩ := by
  have hcreds : ¬(a.clientId = "" ∨ a.clientSecret = "") := by
    rintro (h | h)
    · exact ha h
    · exact hs h
  refine ⟨?_, ?_, ?_⟩ <;>
    simp [getAccessToken, fetchNewToken, storeToken, hcreds]

/-- Witness for C1: a cached token with expiry 5000 is returned unchanged
(0 fetches) at time 4999. -/
theorem claim1_witness :
    getAccessToken (some ⟨"id", "secret", "/oauth/token"⟩)
        ⟨some ⟨"cached", "Bearer", 600⟩, some 5000⟩ 4999
        (.ok ⟨"fresh", "Bearer", 300⟩) =
      .ok ⟨⟨"cached", "Bearer", 600⟩, ⟨some ⟨"cached", "Bearer", 600⟩, some 5000⟩, 0⟩ := by
  have h := (claim1_getAccessToken_cache ⟨"id", "secret", "/oauth/token"⟩ (by decide) (by decide)
    ⟨"cached", "Bearer", 600⟩ ⟨"fresh", "Bearer", 300⟩ 5000 4999).1
  rw [if_pos (by decide)] at h
  exact h

/-- Claim C5: `buildUrl` prepends the base URL exactly when the path's
first character is `/` (otherwise the path is taken as already absolute);
query params are `qs`-encoded in bracket-nested notation, so the
`filter[status]` example yields the query string `filter%5Bstatus%5D=1`;
a params object exposing a `getQueryObject` capability is flattened via
that capability before encoding. -/
theorem claim5_buildUrl (baseUrl path : String) (params : Option UrlParams)
    (q : List (String × String)) :
    ((buildUrl baseUrl path params).base =
        if headIsSlash path then baseUrl ++ path else path)
    ∧ buildUrl baseUrl path (some (.withQueryObject q)) =
        buildUrl baseUrl path (some (.plain q))
    ∧ (buildUrl "https://example.com" "/jsonapi/node/article"
        (some (.plain [("filter[status]", "1")]))).search = "filter%5Bstatus%5D=1" := by
  refine ⟨?_, rfl, ?_⟩
  · cases params <;> rfl
  · rfl

/-- Claim C6: `buildMenuTree` on an empty input returns the empty forest
`{items: []}`; on the three-link input it produces exactly one root `a`
whose children are `b` then `c` (leaves carry no `items` key), with no
unattached nodes remaining. -/
theorem claim6_buildMenuTree :
    buildMenuTree 4 [] "" = some (some [])
    ∧ buildMenuTree 4 [⟨"a", ""⟩, ⟨"b", "a"⟩, ⟨"c", "a"⟩] "" =
        some (some [.mk ⟨"a", ""⟩ (some [.mk ⟨"b", "a"⟩ none, .mk ⟨"c", "a"⟩ none])]) :=
  ⟨rfl, rfl⟩

/-- Claim C10: the prefix text plus `/` is removed at its first occurrence
anywhere in the slash-trimmed path, not only as a leading segment:
`"news/blog/post"` with prefix `"/blog"` loses its interior `blog`
segment, although the path does not start with the prefix, and the path is
not returned unchanged. -/
theorem claim10_prefix_removal_midpath :
    buildStaticPathsParamsFromPaths ["news/blog/post"] ⟨some "/blog", none⟩ =
        [{ slug := ["news", "post"], locale := none }]
    ∧ strStartsWith "news/blog/post" "blog/" = false
    ∧ buildStaticPathsParamsFromPaths ["news/blog/post"] ⟨some "/blog", none⟩ ≠
        [{ slug := ["news", "blog", "post"], locale := none }] := by
  refine ⟨rfl, by decide, by decide⟩

/-- Claim C2: for every non-empty path, `getResourceByPath` issues exactly
one `POST` to the subrequests endpoint whose body is an ordered array of
exactly two sub-requests — the first with requestId `router` targeting
`/router/translate-path` with the (locale-normalized) path, the second
with requestId `resolvedResource`, `waitFor: ["router"]`, and a URI
template interpolating the router response's JSON:API individual link; the
endpoint path is `/subrequests` unless a locale and defaultLocale are both
given and differ, in which case it is the locale-prefixed variant. -/
theorem claim2_subrequests_post (baseUrl frontPage path : String) (o : ByPathOptions)
    (hpath : path ≠ "") :
    ∃ call, getResourceByPathRequest baseUrl frontPage path o = some call
      ∧ call.method = "POST"
      ∧ call.url.base = baseUrl ++ subrequestsEndpoint o.locale o.defaultLocale
      ∧ call.payload.length = 2
      ∧ call.payload[0]? = some (Subrequest.mk "router" "view"
          ("/router/translate-path?path=" ++
            normalizeResourcePath frontPage path o.locale o.defaultLocale ++ "&_format=json")
          [] (some "application/vnd.api+json"))
      ∧ call.payload[1]? = some (Subrequest.mk "resolvedResource" "view"
          ("\x7b\x7brouter.body@$.jsonapi.individual\x7d\x7d?" ++
            qsStringify (paramsAfterVersioning o.isVersionable o.paramsResourceVersion
              o.paramsRest))
          ["router"] none)
      ∧ (∀ l d : String, subrequestsEndpoint (some l) (some d) =
          if l ≠ "" ∧ d ≠ "" ∧ l ≠ d then "/" ++ l ++ "/subrequests" else "/subrequests")
      ∧ subrequestsEndpoint none o.defaultLocale = "/subrequests" := by
  rw [getResourceByPathRequest, if_neg hpath]
  refine ⟨_, rfl, rfl, ?_, rfl, rfl, rfl, ?_, ?_⟩
  · simp [buildUrl, subrequestsEndpoint_headIsSlash]
  · intro l d
    by_cases hl : l = "" <;> by_cases hd : d = "" <;> by_cases hld : l = d <;>
      simp [subrequestsEndpoint, truthyStr, hl, hd, hld]
  · cases h : o.defaultLocale <;> simp [subrequestsEndpoint, truthyStr]

/-- Witness for C2: `getResourceByPath("/about")` with default options
produces the single `POST /subrequests` call with a two-element payload. -/
theorem claim2_witness :
    ∃ call, getResourceByPathRequest "https://example.com" "/home" "/about" {} = some call
      ∧ call.method = "POST" ∧ call.payload.length = 2
      ∧ call.url.base = "https://example.com/subrequests" := by
  obtain ⟨call, h1, h2, h3, h4, _⟩ :=
    claim2_subrequests_post "https://example.com" "/home" "/about" {} (by decide)
  exact ⟨call, h1, h2, h4, h3⟩

/-- Claim C3: in `getResourceByPath`, when the batched response has no
resolved-resource body, a (non-empty) `message` parsed from the router
sub-response fails the call with exactly that message and anything else
returns `null` (not an error); when the resolved-resource body is present,
a JSON:API `errors` array fails the call with the JSON:API-formatted
message, and otherwise the (optionally deserialized) resource is
returned. -/
theorem claim3_subrequests_response (d : Bool) (m payload : String)
    (rb : Option RouterBodyDoc) (e : JsonApiErr) (es : List JsonApiErr) :
    (handleSubrequestsResponse d ⟨none, some ⟨some m⟩⟩ =
      if m = "" then .nullResult else .failure m)
    ∧ handleSubrequestsResponse d ⟨none, some ⟨none⟩⟩ = .nullResult
    ∧ handleSubrequestsResponse d ⟨none, none⟩ = .nullResult
    ∧ handleSubrequestsResponse d ⟨some ⟨some (e :: es), payload⟩, rb⟩ =
        .failure (formatJsonApiErrors (e :: es))
    ∧ handleSubrequestsResponse d ⟨some ⟨none, payload⟩, rb⟩ =
        .resource d ⟨none, payload⟩ :=
  ⟨rfl, rfl, rfl, rfl, rfl⟩

/-- Claim C4: a non-success response is never returned by `fetch` — the
call fails with a message classified by content type: `application/json`
yields the body's `message` field; `application/vnd.api+json` with a
non-empty `errors` array yields `"{status} {title}"` from the first entry
with `"\n{detail}"` appended only when a detail is present (and truthy:
the JS guard skips an empty-string detail, so status 404 and title
Not Found with no or empty detail yield exactly `"404 Not Found"`); any
other response yields the HTTP status text. -/
theorem claim4_fetch_error_classification (sText m s t : String) (dOpt jm : Option String)
    (ct : Option String) (errs : Option (List JsonApiErr)) (es : List JsonApiErr)
    (ctStr : String) :
    fetchResult ⟨false, sText, ct, jm, errs⟩ =
        .error (formatErrorResponse ⟨false, sText, ct, jm, errs⟩)
    ∧ formatErrorResponse ⟨false, sText, some "application/json", some m, errs⟩ = m
    ∧ formatErrorResponse ⟨false, sText, some "application/vnd.api+json", jm,
        some (⟨s, t, dOpt⟩ :: es)⟩ =
        (match dOpt with
         | some dd => if dd = "" then s ++ " " ++ t else s ++ " " ++ t ++ "\n" ++ dd
         | none => s ++ " " ++ t)
    ∧ formatErrorResponse ⟨false, sText, some "application/vnd.api+json", jm, some []⟩ = sText
    ∧ formatErrorResponse ⟨false, sText, some "application/vnd.api+json", jm, none⟩ = sText
    ∧ (formatErrorResponse ⟨false, sText, some ctStr, jm, none⟩ =
        if ctStr = "application/json" then (match jm with | some mm => mm | none => "")
        else sText)
    ∧ formatErrorResponse ⟨false, sText, none, jm, errs⟩ = sText
    ∧ fetchResult ⟨false, "Not Found", some "application/vnd.api+json", none,
        some [⟨"404", "Not Found", none⟩]⟩ = .error "404 Not Found" := by
  refine ⟨rfl, rfl, ?_, rfl, rfl, ?_, rfl, rfl⟩
  · cases dOpt with
    | none => rfl
    | some dd => by_cases hd : dd = "" <;> simp [formatErrorResponse, formatJsonApiErrors, hd]
  · by_cases hc : ctStr = "application/json"
    · simp [formatErrorResponse, hc]
    · by_cases hv : ctStr = "application/vnd.api+json" <;>
        simp [formatErrorResponse, hc, hv]

/-- Claim C7: `buildStaticPathsParamsFromPaths` strips the leading and
trailing slash, removes the configured prefix, splits the remainder on `/`
into ordered slug segments, and attaches the locale tag only when a
(truthy) locale option is given; in particular `["blog/post-1"]` with
prefix `/blog` yields the single entry with slug segments `["post-1"]`. -/
theorem claim7_static_paths_params (paths : List String) (pre : Option String) (l : String) :
    buildStaticPathsParamsFromPaths ["blog/post-1"] ⟨some "/blog", none⟩ =
        [{ slug := ["post-1"], locale := none }]
    ∧ buildStaticPathsParamsFromPaths ["/about/"] ⟨none, none⟩ =
        [{ slug := ["about"], locale := none }]
    ∧ buildStaticPathsParamsFromPaths ["blog/post-1"] ⟨some "/blog", some "es"⟩ =
        [{ slug := ["post-1"], locale := some "es" }]
    ∧ (buildStaticPathsParamsFromPaths paths ⟨pre, some l⟩).map (fun e => e.locale) =
        List.replicate paths.length (if l = "" then none else some l)
    ∧ (buildStaticPathsParamsFromPaths paths ⟨pre, none⟩).map (fun e => e.locale) =
        List.replicate paths.length none := by
  refine ⟨rfl, rfl, rfl, ?_, ?_⟩
  · induction paths with
    | nil => rfl
    | cons p ps ih =>
      simpa [buildStaticPathsParamsFromPaths, truthyStr, List.replicate_succ] using ih
  · induction paths with
    | nil => rfl
    | cons p ps ih =>
      simpa [buildStaticPathsParamsFromPaths, truthyStr, List.replicate_succ] using ih

/-- Counterexample to Claim C8 as stated: the type `node--article` begins
with `node--`, yet with an explicitly supplied `isVersionable: false` and
no `resourceVersion` the pipeline does not treat the entity as versionable
and sends no `resourceVersion` parameter. -/
theorem claim8_counterexample :
    strStartsWith "node--article" "node--" = true
    ∧ resolvedVersionable "node--article" (some false) none none = false
    ∧ resolvedResourceVersionParam "node--article" (some false) none none = none := by
  refine ⟨by decide, rfl, rfl⟩

/-- Claim C8 (amended): the pipeline treats the entity as versionable
exactly when the caller's explicit `isVersionable` — defaulting to whether
the type begins with `node--` — holds, or a non-empty `resourceVersion`
param (caller's params overriding preview data) is supplied, which forces
versionability; when versionable, a `resourceVersion` parameter equal to
the supplied value (default `rel:latest-version`) is attached, and when
not versionable no `resourceVersion` parameter is sent. -/
theorem claim8_versionable_amended (type : String) (callerIsVersionable : Option Bool)
    (previewRV callerRV : Option String) :
    resolvedVersionable type callerIsVersionable previewRV callerRV =
        ((match callerRV.or previewRV with
          | some s => decide (s ≠ "")
          | none => false)
         || callerIsVersionable.getD (strStartsWith type "node--"))
    ∧ resolvedResourceVersionParam type callerIsVersionable previewRV callerRV =
        (if resolvedVersionable type callerIsVersionable previewRV callerRV then
          some ((callerRV.or previewRV).getD "rel:latest-version")
        else none) := by
  have hcv : contextResourceVersion previewRV callerRV = callerRV.or previewRV := by
    cases callerRV <;> rfl
  constructor
  · rw [resolvedVersionable, hcv]
    rcases hor : callerRV.or previewRV with _ | s
    · simp [versionableInByPath, contextIsVersionable]
    · by_cases hse : s = "" <;> simp [versionableInByPath, contextIsVersionable, hse]
  · simp only [resolvedResourceVersionParam, resolvedVersionable, paramsAfterVersioning, hcv]
    by_cases hb : versionableInByPath (contextIsVersionable type callerIsVersionable)
        (callerRV.or previewRV) = true
    · simp [hb, List.lookup]
    · simp [hb]

/-- Claim C9: for a non-empty link list in which no link's parent equals
the requested parent id, `buildMenuTree` returns the bare `{}` (no `items`
key at all), a different shape from the `{items: []}` returned for an
empty input; consequently `getMenu`'s extracted tree is `undefined` when
the menu has no root-level links. -/
theorem claim9_menu_tree_shape (fuel : Nat) (l : MenuLink) (ls : List MenuLink)
    (parent : String)
    (h : (l :: ls).filter (fun x => x.parent == parent) = []) :
    buildMenuTree (fuel + 1) (l :: ls) parent = some none
    ∧ buildMenuTree (fuel + 1) [] parent = some (some [])
    ∧ ((l :: ls).filter (fun x => x.parent == "") = [] →
        getMenuTreeOfItems (fuel + 1) (l :: ls) = some none)
    ∧ (some none : Option (Option (List MenuTreeNode))) ≠ some (some []) := by
  refine ⟨?_, rfl, ?_, by simp⟩
  · simp [buildMenuTree, h]
  · intro h0
    simp [getMenuTreeOfItems, buildMenuTree, h0]

/-- Witness for C9: a single non-root link under parent id `x` (which no
link has as parent) yields `{}`, and the extracted menu tree for the same
links is `undefined`. -/
theorem claim9_witness :
    buildMenuTree 3 [⟨"a", "other"⟩] "x" = some none
    ∧ getMenuTreeOfItems 3 [⟨"a", "other"⟩] = some none := by
  have h := claim9_menu_tree_shape 2 ⟨"a", "other"⟩ [] "x" rfl
  exact ⟨h.1, h.2.2.1 rfl⟩

end NextDrupal
